import Mathlib

/-!
Verification model of the RFID attendance server (`server.js`).

The database tables (`rfid_details`, `users`, `programs`, `departments`,
`attendance_log`) are modelled as lists of rows; SQL queries become list
operations on them.  The core scan handler `handleCardScan`, the branch-count
query `getTodayBranchCounts`, the cron job `autoLogoutCurrentDay`, the
RFID-binding update route, the authentication middleware and the serial-line
duplicate filter are each translated from the source.  Database queries can
fail (a promise rejection caught by `try/catch`); this is modelled by a
failure oracle saying which of the queries of one `handleCardScan` call
throws.
-/

/-- Row of `rfid_details` (user_id, uid). -/
structure RfidRow where
  user_id : String
  uid : String
deriving DecidableEq

/-- Row of `users`. -/
structure UserRow where
  user_id : String
  user_type : String
  user_name : String
  year : Option String
  designation : Option String
  program_id : Option Nat
  department_id : Option Nat
deriving DecidableEq

/-- Row of `programs`. -/
structure ProgramRow where
  program_id : Nat
  degree : String
  branch_name : String
  branch_code : String
deriving DecidableEq

/-- Row of `departments`. -/
structure DepartmentRow where
  department_id : Nat
  department_name : String
deriving DecidableEq

/-- Row of `attendance_log`; `log_id` is the auto-increment key and
`logout_time = none` is SQL NULL. -/
structure AttendanceRow where
  log_id : Nat
  user_id : String
  log_date : String
  login_time : String
  logout_time : Option String
deriving DecidableEq

/-- The database state: the five tables plus the auto-increment counter of
`attendance_log`. -/
structure DB where
  rfid_details : List RfidRow
  users : List UserRow
  programs : List ProgramRow
  departments : List DepartmentRow
  attendance_log : List AttendanceRow
  nextLogId : Nat
deriving DecidableEq

/-- The joined rows of the `getTodayBranchCounts` query before grouping:
`attendance_log JOIN users JOIN programs` filtered by
`log_date = today AND user_type = 'student'`, projected to
`(degree, branch_code)`. -/
def joinRowsOf (log : List AttendanceRow) (users : List UserRow)
    (programs : List ProgramRow) (today : String) : List (String × String) :=
  (log.filter (fun al => al.log_date == today)).flatMap (fun al =>
    (users.filter (fun u => u.user_id == al.user_id && u.user_type == "student")).flatMap
      (fun u =>
        (programs.filter (fun p => u.program_id == some p.program_id)).map
          (fun p => (p.degree, p.branch_code))))

/-- `joinRowsOf` applied to the tables of a database state. -/
def joinedStudentRows (db : DB) (today : String) : List (String × String) :=
  joinRowsOf db.attendance_log db.users db.programs today

/-- The `ORDER BY p.degree, p.branch_code` order on group keys. -/
def keyLE (a b : String × String) : Prop :=
  a.1 < b.1 ∨ (a.1 = b.1 ∧ a.2 ≤ b.2)

/-- Strict version of `keyLE`, for stating that the rows are strictly
ascending. -/
def keyLT (a b : String × String) : Prop :=
  a.1 < b.1 ∨ (a.1 = b.1 ∧ a.2 < b.2)

instance : DecidableRel keyLE := fun a b => by
  unfold keyLE; infer_instance

instance : DecidableRel keyLT := fun a b => by
  unfold keyLT; infer_instance

instance : IsTrans (String × String) keyLE where
  trans a b c hab hbc := by
    rcases hab with h1 | ⟨h1, h2⟩ <;> rcases hbc with h3 | ⟨h3, h4⟩
    · exact Or.inl (lt_trans h1 h3)
    · exact Or.inl (h3 ▸ h1)
    · exact Or.inl (h1 ▸ h3)
    · exact Or.inr ⟨h1.trans h3, le_trans h2 h4⟩

instance : IsTotal (String × String) keyLE where
  total a b := by
    rcases lt_trichotomy a.1 b.1 with h | h | h
    · exact Or.inl (Or.inl h)
    · rcases le_total a.2 b.2 with h2 | h2
      · exact Or.inl (Or.inr ⟨h, h2⟩)
      · exact Or.inr (Or.inr ⟨h.symm, h2⟩)
    · exact Or.inr (Or.inl h)

/-- The result rows of the grouped SQL query: one `(degree, branch_code,
visit_count)` row per distinct key, ordered by `ORDER BY degree,
branch_code`. -/
def flatCounts (rows : List (String × String)) : List (String × String × Nat) :=
  ((rows.insertionSort keyLE).dedup).map (fun k => (k.1, k.2, rows.count k))

/-- One step of the JS grouping loop: append the flat row to the entry list of
its degree, creating the degree key on first sight (JS object insertion
order). -/
def addCountRow (acc : List (String × List (String × Nat))) (row : String × String × Nat) :
    List (String × List (String × Nat)) :=
  if acc.any (fun g => g.1 == row.1) then
    acc.map (fun g => if g.1 == row.1 then (g.1, g.2 ++ [(row.2.1, row.2.2)]) else g)
  else acc ++ [(row.1, [(row.2.1, row.2.2)])]

/-- The grouping loop of `getTodayBranchCounts` over the flat count rows. -/
def countsOfRows (rows : List (String × String)) : List (String × List (String × Nat)) :=
  (flatCounts rows).foldl addCountRow []

/-- `getTodayBranchCounts`: grouped per-degree `(branch_code, visit_count)`
lists computed from today's student attendance rows. -/
def getTodayBranchCounts (db : DB) (today : String) : List (String × List (String × Nat)) :=
  countsOfRows (joinedStudentRows db today)

/-- The row returned by the detailed user query of `handleCardScan`
(`users LEFT JOIN programs LEFT JOIN departments`). -/
structure UserDetails where
  user : UserRow
  program : Option ProgramRow
  department : Option DepartmentRow
deriving DecidableEq

/-- The detailed user lookup of `handleCardScan`: first `users` row with the
given id, left-joined to its program and department. -/
def userDetails (db : DB) (id : String) : Option UserDetails :=
  (db.users.find? (fun u => u.user_id == id)).map (fun u =>
    ⟨u, db.programs.find? (fun p => u.program_id == some p.program_id),
        db.departments.find? (fun d => u.department_id == some d.department_id)⟩)

/-- A socket.io broadcast: `scan_event` (uid, status, optional details,
optional time) or `counts_update`. -/
inductive Emit where
  | scanEvent (uid status : String) (details : Option UserDetails) (time : Option String)
  | countsUpdate (counts : List (String × List (String × Nat)))
deriving DecidableEq

/-- Which of the (up to five) database queries of one `handleCardScan` call
throws: the `rfid_details` select, the user-details select, the open-login
select, the write (UPDATE or INSERT), and the counts select inside
`getTodayBranchCounts`. -/
structure FailureOracle where
  q1 : Bool
  q2 : Bool
  q3 : Bool
  q4 : Bool
  q5 : Bool
deriving DecidableEq

/-- Oracle under which every query succeeds. -/
def noFail : FailureOracle := ⟨false, false, false, false, false⟩

/-- Result of a `handleCardScan` call: the database afterwards, the emitted
events in order, and whether the `catch` block ran. -/
structure ScanResult where
  db : DB
  emits : List Emit
  errored : Bool
deriving DecidableEq

/-- The predicate of the open-login query: same user, today's date, NULL
`logout_time`. -/
def isOpenRow (uid1 date : String) (a : AttendanceRow) : Bool :=
  a.user_id == uid1 && a.log_date == date && a.logout_time == none

/-- The LOGOUT write: `UPDATE attendance_log SET logout_time = ? WHERE
log_id = ?`. -/
def logoutDb (db : DB) (logId : Nat) (currentTime : String) : DB :=
  let newLog := db.attendance_log.map (fun a =>
    if a.log_id == logId then { a with logout_time := some currentTime } else a)
  { db with attendance_log := newLog }

/-- The LOGIN write: `INSERT INTO attendance_log (user_id, log_date,
login_time) VALUES (?, ?, ?)`. -/
def loginDb (db : DB) (userId currentDate currentTime : String) : DB :=
  let newLog := db.attendance_log ++ [⟨db.nextLogId, userId, currentDate, currentTime, none⟩]
  { db with attendance_log := newLog, nextLogId := db.nextLogId + 1 }

/-- `handleCardScan` translated from `server.js`, parameterised by the
current date and time strings and a failure oracle.  On a query failure the
`catch` block sets `status = 'ERROR'` on the event data accumulated so far
and emits it. -/
def handleCardScanF (db : DB) (uid currentDate currentTime : String)
    (o : FailureOracle) : ScanResult :=
  if o.q1 then ⟨db, [.scanEvent uid "ERROR" none none], true⟩ else
  match db.rfid_details.find? (fun r => r.uid == uid) with
  | none => ⟨db, [.scanEvent uid "UNREGISTERED" none none], false⟩
  | some rrow =>
    if o.q2 then ⟨db, [.scanEvent uid "ERROR" none none], true⟩ else
    match userDetails db rrow.user_id with
    | none => ⟨db, [.scanEvent uid "NO_DETAILS" none none], false⟩
    | some det =>
      if o.q3 then ⟨db, [.scanEvent uid "ERROR" (some det) none], true⟩ else
      match db.attendance_log.find? (isOpenRow rrow.user_id currentDate) with
      | some openRow =>
        if o.q4 then ⟨db, [.scanEvent uid "ERROR" (some det) none], true⟩ else
        let db' := logoutDb db openRow.log_id currentTime
        ⟨db', [.scanEvent uid "LOGOUT" (some det) (some currentTime)], false⟩
      | none =>
        if o.q4 then ⟨db, [.scanEvent uid "ERROR" (some det) none], true⟩ else
        let db' := loginDb db rrow.user_id currentDate currentTime
        if o.q5 then
          ⟨db', [.scanEvent uid "LOGIN" (some det) (some currentTime),
                 .scanEvent uid "ERROR" (some det) (some currentTime)], true⟩
        else
          ⟨db', [.scanEvent uid "LOGIN" (some det) (some currentTime),
                 .countsUpdate (getTodayBranchCounts db' currentDate)], false⟩

/-- `handleCardScan` on the normal path (no query fails). -/
def handleCardScan (db : DB) (uid currentDate currentTime : String) : ScanResult :=
  handleCardScanF db uid currentDate currentTime noFail

/-- The cron job `autoLogoutCurrentDay`: set `logout_time = '19:00:00'` on
every row of the current date whose `logout_time` is NULL. -/
def autoLogoutCurrentDay (db : DB) (today : String) : DB :=
  let newLog := db.attendance_log.map (fun r =>
    if r.log_date == today && r.logout_time == none then
      { r with logout_time := some "19:00:00" }
    else r)
  { db with attendance_log := newLog }

/-- Result of the `POST /edit-rfid/update` transaction: the `rfid_details`
table afterwards and whether the transaction committed (`false` means it was
rolled back and the response is the error redirect). -/
def editRfidUpdate (rfid : List RfidRow) (user_id new_uid : String) :
    List RfidRow × Bool :=
  if user_id == "" then (rfid, false)
  else if new_uid != "" && rfid.any (fun b => b.uid == new_uid && b.user_id != user_id) then
    (rfid, false)
  else
    let afterDelete := rfid.filter (fun b => b.user_id != user_id)
    (if new_uid != "" then afterDelete ++ [⟨user_id, new_uid⟩] else afterDelete, true)

/-- The debounce timeout of the serial layer (`SCAN_TIMEOUT_MS`). -/
def SCAN_TIMEOUT_MS : Nat := 5000

/-- The characters of the line header `"RFID Tag UID:"` checked by
`line.startsWith`. -/
def scanHeader : List Char :=
  ['R', 'F', 'I', 'D', ' ', 'T', 'a', 'g', ' ', 'U', 'I', 'D', ':']

/-- JS `line.split(":")`: split a character sequence at every colon. -/
def splitOnColon : List Char → List (List Char)
  | [] => [[]]
  | c :: cs =>
    if c = ':' then [] :: splitOnColon cs
    else
      match splitOnColon cs with
      | [] => [[c]]
      | h :: t => (c :: h) :: t

/-- JS `String.prototype.trim`: drop leading and trailing whitespace. -/
def jsTrim (cs : List Char) : List Char :=
  ((cs.dropWhile Char.isWhitespace).reverse.dropWhile Char.isWhitespace).reverse

/-- The UID extraction `line.split(":")[1].trim()` of the serial handler. -/
def extractUid (line : List Char) : List Char :=
  jsTrim ((splitOnColon line).getD 1 [])

/-- The UID the spec describes: the remainder of the line after the header
`"RFID Tag UID:"`, trimmed.  (Modelled from the spec's reading of the line
format, to be compared with `extractUid` from the source.) -/
def specUid (line : List Char) : List Char :=
  jsTrim (line.drop scanHeader.length)

/-- An entry of the `scannedRecently` set together with the instant at which
its `setTimeout` deletion fires. -/
structure FilterEntry where
  uid : List Char
  expiry : Nat
deriving DecidableEq

/-- Entries whose deletion timer has not yet fired at instant `t`. -/
def pruneExpired (s : List FilterEntry) (t : Nat) : List FilterEntry :=
  s.filter (fun e => decide (t < e.expiry))

/-- What the `parser.on('data')` callback does with one line: nothing (not a
scan line), emit an IGNORED `scan_event` without calling `handleCardScan`, or
call `handleCardScan uid`. -/
inductive LineOutcome where
  | notScan
  | ignoredDup (uid : List Char)
  | processed (uid : List Char)
deriving DecidableEq

/-- The serial data callback at instant `t`: expired entries have been removed
by their timers; a line starting with the header is debounced through
`scannedRecently` and otherwise processed, adding a deletion timer for
`t + SCAN_TIMEOUT_MS`. -/
def handleLine (s : List FilterEntry) (t : Nat) (line : List Char) :
    List FilterEntry × LineOutcome :=
  if scanHeader.isPrefixOf line then
    if (pruneExpired s t).any (fun e => e.uid == extractUid line) then
      (pruneExpired s t, .ignoredDup (extractUid line))
    else
      (⟨extractUid line, t + SCAN_TIMEOUT_MS⟩ :: pruneExpired s t, .processed (extractUid line))
  else (pruneExpired s t, .notScan)

/-- Run a sequence of timestamped serial lines through the filter state. -/
def runLines (s : List FilterEntry) (evs : List (Nat × List Char)) : List FilterEntry :=
  evs.foldl (fun st ev => (handleLine st ev.1 ev.2).1) s

/-- The user record stored in `req.session.user` on login. -/
structure SessionUser where
  username : String
  role : String
  linked_user_id : Option String
deriving DecidableEq

/-- An express session: `user` is set exactly when someone is logged in. -/
structure Session where
  user : Option SessionUser
deriving DecidableEq

/-- A response of a route: render a view or redirect. -/
inductive HttpResponse where
  | page (view : String)
  | redirectTo (url : String)
deriving DecidableEq

/-- The redirect target of the `isAuthenticated` middleware. -/
def loginRedirectUrl : String := "/login?error=Please login to access this page."

/-- The `isAuthenticated` middleware applied to a route handler; the boolean
records whether `next()` was called, i.e. whether the handler ran. -/
def isAuthenticated (req : Session) (handler : Unit → HttpResponse) :
    HttpResponse × Bool :=
  match req.user with
  | some _ => (handler (), true)
  | none => (.redirectTo loginRedirectUrl, false)

/-- The admin routes registered with the `isAuthenticated` guard, with the
view each handler renders. -/
def guardedRoutes : List (String × (Unit → HttpResponse)) :=
  [("/home", fun _ => .page "reports-landing"),
   ("/reports/student", fun _ => .page "report-generator"),
   ("/reports/faculty", fun _ => .page "report-generator"),
   ("/manage-student", fun _ => .page "manage-student"),
   ("/manage-faculty", fun _ => .page "manage-faculty"),
   ("/edit-rfid", fun _ => .page "edit-rfid"),
   ("/manage-programs", fun _ => .page "manage-programs")]

/-- Dispatch a request for `path` against the guarded routes. -/
def dispatchGuarded (path : String) (s : Session) : Option (HttpResponse × Bool) :=
  (guardedRoutes.find? (fun r => r.1 == path)).map (fun r => isAuthenticated s r.2)

/-- A small concrete database: one registered student with one RFID binding
and no attendance rows yet. -/
def dbEx : DB where
  rfid_details := [⟨"u1", "UID1"⟩]
  users := [⟨"u1", "student", "Alice", some "2", none, some 1, none⟩]
  programs := [⟨1, "BTech", "CSE", "CS"⟩]
  departments := []
  attendance_log := []
  nextLogId := 1

/-- Like `dbEx` but with an open attendance session for today. -/
def dbExOpen : DB where
  rfid_details := [⟨"u1", "UID1"⟩]
  users := [⟨"u1", "student", "Alice", some "2", none, some 1, none⟩]
  programs := [⟨1, "BTech", "CSE", "CS"⟩]
  departments := []
  attendance_log := [⟨1, "u1", "2026-10-11", "10:00:00", none⟩]
  nextLogId := 2

/-- C6: for a UID with no row in `rfid_details`, `handleCardScan` emits one
UNREGISTERED `scan_event` carrying no user details and returns with the
database unchanged. -/
theorem unregistered_scan_noop (db : DB) (uid currentDate currentTime : String)
    (h : ∀ r ∈ db.rfid_details, r.uid ≠ uid) :
    handleCardScan db uid currentDate currentTime =
      ⟨db, [.scanEvent uid "UNREGISTERED" none none], false⟩ := by
  have hf : db.rfid_details.find? (fun r => r.uid == uid) = none := by
    rw [List.find?_eq_none]
    intro r hr
    simpa using h r hr
  simp [handleCardScan, handleCardScanF, noFail, hf]

/-- Witness for C6: scanning the unbound UID `"UIDX"` on the concrete
database changes nothing and reports UNREGISTERED. -/
theorem unregistered_scan_noop_witness :
    handleCardScan dbEx "UIDX" "2026-10-11" "10:00:00" =
      ⟨dbEx, [.scanEvent "UIDX" "UNREGISTERED" none none], false⟩ :=
  unregistered_scan_noop dbEx "UIDX" "2026-10-11" "10:00:00" (by decide)

/-- C9: the `isAuthenticated` middleware runs the route handler exactly when
`req.session.user` is set; otherwise the response is the login redirect with
an error message and the handler never runs, for every guarded admin
route. -/
theorem isAuthenticated_guards (s : Session) :
    (∀ handler : Unit → HttpResponse,
        ((isAuthenticated s handler).2 = true ↔ s.user.isSome = true) ∧
        (s.user = none →
          isAuthenticated s handler = (.redirectTo loginRedirectUrl, false)) ∧
        (∀ u, s.user = some u → isAuthenticated s handler = (handler (), true))) ∧
    (∀ p h, (p, h) ∈ guardedRoutes → s.user = none →
        dispatchGuarded p s = some (.redirectTo loginRedirectUrl, false)) := by
  constructor
  · intro handler
    refine ⟨?_, ?_, ?_⟩
    · cases hu : s.user <;> simp [isAuthenticated, hu]
    · intro hu; simp [isAuthenticated, hu]
    · intro u hu; simp [isAuthenticated, hu]
  · intro p h hmem hnone
    have hex : ∃ r ∈ guardedRoutes, (fun r => r.1 == p) r = true := ⟨(p, h), hmem, by simp⟩
    obtain ⟨r, hfind⟩ := Option.isSome_iff_exists.mp (List.find?_isSome.mpr hex)
    unfold dispatchGuarded
    rw [hfind]
    simp [isAuthenticated, hnone]

/-- Witness for C9: with no session user, a request to `/home` is answered by
the login redirect without running the handler. -/
theorem isAuthenticated_guards_witness :
    dispatchGuarded "/home" ⟨none⟩ = some (.redirectTo loginRedirectUrl, false) :=
  (isAuthenticated_guards ⟨none⟩).2 "/home" (fun _ => .page "reports-landing")
    (List.Mem.head _) rfl

/-- C5: `autoLogoutCurrentDay` sets `logout_time = '19:00:00'` on exactly the
rows of the current date with NULL `logout_time`; every other row and every
other field and table is unchanged, and afterwards no open session remains
for the current date. -/
theorem autoLogout_exact (db : DB) (today : String) :
    (autoLogoutCurrentDay db today).rfid_details = db.rfid_details ∧
    (autoLogoutCurrentDay db today).users = db.users ∧
    (autoLogoutCurrentDay db today).programs = db.programs ∧
    (autoLogoutCurrentDay db today).departments = db.departments ∧
    (autoLogoutCurrentDay db today).nextLogId = db.nextLogId ∧
    (autoLogoutCurrentDay db today).attendance_log.length = db.attendance_log.length ∧
    (∀ i (hi : i < db.attendance_log.length)
        (hi2 : i < (autoLogoutCurrentDay db today).attendance_log.length),
      ((autoLogoutCurrentDay db today).attendance_log[i].log_id =
          db.attendance_log[i].log_id ∧
        (autoLogoutCurrentDay db today).attendance_log[i].user_id =
          db.attendance_log[i].user_id ∧
        (autoLogoutCurrentDay db today).attendance_log[i].log_date =
          db.attendance_log[i].log_date ∧
        (autoLogoutCurrentDay db today).attendance_log[i].login_time =
          db.attendance_log[i].login_time) ∧
      (db.attendance_log[i].log_date = today ∧ db.attendance_log[i].logout_time = none →
        (autoLogoutCurrentDay db today).attendance_log[i].logout_time = some "19:00:00") ∧
      (¬(db.attendance_log[i].log_date = today ∧ db.attendance_log[i].logout_time = none) →
        (autoLogoutCurrentDay db today).attendance_log[i].logout_time =
          db.attendance_log[i].logout_time)) ∧
    (∀ r ∈ (autoLogoutCurrentDay db today).attendance_log,
      r.log_date = today → r.logout_time ≠ none) := by
  refine ⟨rfl, rfl, rfl, rfl, rfl, by simp [autoLogoutCurrentDay], ?_, ?_⟩
  · intro i hi hi2
    simp only [autoLogoutCurrentDay, List.getElem_map]
    by_cases hc : db.attendance_log[i].log_date = today ∧
        db.attendance_log[i].logout_time = none
    · simp [hc.1, hc.2]
    · constructor
      · split <;> simp
      · refine ⟨fun h => absurd h hc, fun _ => ?_⟩
        split
        · rename_i hb
          simp only [Bool.and_eq_true, beq_iff_eq] at hb
          exact absurd ⟨hb.1, hb.2⟩ hc
        · rfl
  · intro r hr
    simp only [autoLogoutCurrentDay, List.mem_map] at hr
    obtain ⟨a, _, rfl⟩ := hr
    split
    · intro _
      simp
    · rename_i hb
      simp only [Bool.and_eq_true, beq_iff_eq] at hb
      intro htoday hnone
      exact hb ⟨htoday, hnone⟩

/-- Witness for C5: on the concrete database with one open row for
2026-10-11, the cron job closes exactly that row at 19:00:00. -/
theorem autoLogout_exact_witness :
    ((autoLogoutCurrentDay dbExOpen "2026-10-11").attendance_log[0].logout_time =
        some "19:00:00") ∧
    (∀ r ∈ (autoLogoutCurrentDay dbExOpen "2026-10-11").attendance_log,
      r.log_date = "2026-10-11" → r.logout_time ≠ none) := by
  have h := autoLogout_exact dbExOpen "2026-10-11"
  exact ⟨(h.2.2.2.2.2.2.1 0 (by decide) (by decide)).2.1 (by decide), h.2.2.2.2.2.2.2⟩

/-- C1: for a bound UID whose user details exist, `handleCardScan` decides
between LOGIN and LOGOUT solely on whether an open `attendance_log` row
(user, today, NULL logout) exists: if so it closes that row and emits a
LOGOUT `scan_event`; otherwise it inserts a new row with today's date and the
current time and emits a LOGIN `scan_event`. -/
theorem handleCardScan_toggle (db : DB) (uid currentDate currentTime : String)
    (rrow : RfidRow) (det : UserDetails)
    (hr : db.rfid_details.find? (fun r => r.uid == uid) = some rrow)
    (hd : userDetails db rrow.user_id = some det) :
    (∀ openRow, db.attendance_log.find? (isOpenRow rrow.user_id currentDate) = some openRow →
      handleCardScan db uid currentDate currentTime =
        ⟨logoutDb db openRow.log_id currentTime,
         [.scanEvent uid "LOGOUT" (some det) (some currentTime)], false⟩) ∧
    (db.attendance_log.find? (isOpenRow rrow.user_id currentDate) = none →
      handleCardScan db uid currentDate currentTime =
        ⟨loginDb db rrow.user_id currentDate currentTime,
         [.scanEvent uid "LOGIN" (some det) (some currentTime),
          .countsUpdate (getTodayBranchCounts
            (loginDb db rrow.user_id currentDate currentTime) currentDate)], false⟩) := by
  constructor
  · intro openRow ho
    simp [handleCardScan, handleCardScanF, noFail, hr, hd, ho]
  · intro ho
    simp [handleCardScan, handleCardScanF, noFail, hr, hd, ho]

/-- Witness for C1: on the concrete database with an open session, the scan
closes it with a LOGOUT event. -/
theorem handleCardScan_toggle_witness :
    handleCardScan dbExOpen "UID1" "2026-10-11" "18:00:00" =
      ⟨logoutDb dbExOpen 1 "18:00:00",
       [.scanEvent "UID1" "LOGOUT"
          (some ⟨⟨"u1", "student", "Alice", some "2", none, some 1, none⟩,
                 some ⟨1, "BTech", "CSE", "CS"⟩, none⟩)
          (some "18:00:00")], false⟩ :=
  (handleCardScan_toggle dbExOpen "UID1" "2026-10-11" "18:00:00" ⟨"u1", "UID1"⟩
      ⟨⟨"u1", "student", "Alice", some "2", none, some 1, none⟩,
        some ⟨1, "BTech", "CSE", "CS"⟩, none⟩
      (by decide) (by decide)).1 ⟨1, "u1", "2026-10-11", "10:00:00", none⟩ (by decide)

/-- C8: the RFID-binding update transaction rolls back (table unchanged) when
the new UID is non-empty and bound to a different user; otherwise it commits,
every binding of the user is deleted, the new binding is inserted exactly
when the new UID is non-empty, the new UID ends up bound to at most one user,
and per-user binding uniqueness is preserved. -/
theorem editRfidUpdate_atomic (rfid : List RfidRow) (u n : String) (hu : u ≠ "") :
    ((n ≠ "" ∧ ∃ b ∈ rfid, b.uid = n ∧ b.user_id ≠ u) →
      editRfidUpdate rfid u n = (rfid, false)) ∧
    (¬(n ≠ "" ∧ ∃ b ∈ rfid, b.uid = n ∧ b.user_id ≠ u) →
      (editRfidUpdate rfid u n).2 = true ∧
      (editRfidUpdate rfid u n).1 =
        rfid.filter (fun b => b.user_id != u) ++ (if n = "" then [] else [⟨u, n⟩]) ∧
      (editRfidUpdate rfid u n).1.filter (fun b => b.user_id == u) =
        (if n = "" then [] else [⟨u, n⟩]) ∧
      (n ≠ "" → (editRfidUpdate rfid u n).1.filter (fun b => b.uid == n) = [⟨u, n⟩]) ∧
      ((∀ v, (rfid.filter (fun b => b.user_id == v)).length ≤ 1) →
        ∀ v, ((editRfidUpdate rfid u n).1.filter (fun b => b.user_id == v)).length ≤ 1)) := by
  have hubeq : (u == "") = false := by simpa using hu
  have hcond : (n != "" && rfid.any (fun b => b.uid == n && b.user_id != u)) = true ↔
      (n ≠ "" ∧ ∃ b ∈ rfid, b.uid = n ∧ b.user_id ≠ u) := by
    simp [List.any_eq_true]
  constructor
  · intro hc
    simp only [editRfidUpdate, hubeq, Bool.false_eq_true, if_false, hcond.mpr hc, if_true]
  · intro hnc
    have hcf : (n != "" && rfid.any (fun b => b.uid == n && b.user_id != u)) = false :=
      Bool.not_eq_true _ |>.mp (fun h => hnc (hcond.mp h))
    have hres : editRfidUpdate rfid u n =
        (rfid.filter (fun b => b.user_id != u) ++ (if n = "" then [] else [⟨u, n⟩]), true) := by
      by_cases hn : n = "" <;>
        simp [editRfidUpdate, hubeq, hcf, hn]
    refine ⟨by rw [hres], by rw [hres], ?_, ?_, ?_⟩
    · rw [hres]
      simp only [List.filter_append, List.filter_filter]
      have h1 : rfid.filter (fun a => a.user_id == u && a.user_id != u) = [] := by
        rw [List.filter_eq_nil_iff]
        intro b _
        by_cases hb : b.user_id = u <;> simp [hb]
      rw [h1]
      by_cases hn : n = "" <;> simp [hn]
    · intro hn
      rw [hres]
      simp only [List.filter_append, List.filter_filter]
      have h1 : rfid.filter (fun a => a.uid == n && a.user_id != u) = [] := by
        rw [List.filter_eq_nil_iff]
        intro b hb
        by_cases h2 : b.uid = n
        · by_cases h3 : b.user_id = u
          · simp [h3]
          · exact absurd ⟨hn, b, hb, h2, h3⟩ hnc
        · simp [h2]
      rw [h1]
      simp [hn]
    · intro hinv v
      rw [hres]
      simp only [List.filter_append, List.length_append]
      by_cases hv : v = u
      · subst hv
        have h1 : (rfid.filter (fun b => b.user_id != v)).filter
            (fun b => b.user_id == v) = [] := by
          rw [List.filter_filter, List.filter_eq_nil_iff]
          intro b _
          by_cases hb : b.user_id = v <;> simp [hb]
        rw [h1]
        by_cases hn : n = "" <;> simp [hn]
      · have h2 : ((if n = "" then ([] : List RfidRow) else [⟨u, n⟩]).filter
            (fun b => b.user_id == v)) = [] := by
          by_cases hn : n = "" <;> simp [hn, Ne.symm hv]
        rw [h2]
        simp only [List.length_nil, Nat.add_zero]
        calc ((rfid.filter (fun b => b.user_id != u)).filter
                (fun b => b.user_id == v)).length
            ≤ (rfid.filter (fun b => b.user_id == v)).length :=
              ((List.filter_sublist rfid).filter _).length_le
          _ ≤ 1 := hinv v

/-- Witness for C8: rebinding user u1 to the fresh UID C commits, u1 keeps a
single binding and C is bound only to u1. -/
theorem editRfidUpdate_atomic_witness :
    (editRfidUpdate [⟨"u1", "A"⟩, ⟨"u2", "B"⟩] "u1" "C").2 = true ∧
    (editRfidUpdate [⟨"u1", "A"⟩, ⟨"u2", "B"⟩] "u1" "C").1.filter
        (fun b => b.uid == "C") = [⟨"u1", "C"⟩] := by
  have h := editRfidUpdate_atomic [⟨"u1", "A"⟩, ⟨"u2", "B"⟩] "u1" "C" (by decide)
  have h2 := h.2 (by decide)
  exact ⟨h2.1, h2.2.2.2.1 (by decide)⟩

theorem splitOnColon_ne_nil (cs : List Char) : splitOnColon cs ≠ [] := by
  induction cs with
  | nil => simp [splitOnColon]
  | cons c cs ih =>
    unfold splitOnColon
    by_cases hc : c = ':'
    · simp [hc]
    · simp only [hc, if_false]
      cases h : splitOnColon cs <;> simp

theorem splitOnColon_append_colonFree (xs rest : List Char) (h : ∀ c ∈ xs, c ≠ ':') :
    splitOnColon (xs ++ rest) =
      (xs ++ (splitOnColon rest).headI) :: (splitOnColon rest).tail := by
  induction xs with
  | nil =>
    simp only [List.nil_append]
    cases hr : splitOnColon rest with
    | nil => exact absurd hr (splitOnColon_ne_nil rest)
    | cons a t => simp
  | cons c xs ih =>
    have hc : c ≠ ':' := h c (by simp)
    have hxs : ∀ a ∈ xs, a ≠ ':' := fun a ha => h a (by simp [ha])
    simp only [List.cons_append, splitOnColon, hc, if_false, List.append_eq]
    rw [ih hxs]

theorem splitOnColon_colonFree (cs : List Char) (h : ∀ c ∈ cs, c ≠ ':') :
    splitOnColon cs = [cs] := by
  induction cs with
  | nil => rfl
  | cons c cs ih =>
    have hc : c ≠ ':' := h c (by simp)
    rw [splitOnColon, if_neg hc, ih (fun a ha => h a (by simp [ha]))]

theorem extractUid_header_colonFree (rest : List Char) (h : ∀ c ∈ rest, c ≠ ':') :
    extractUid (scanHeader ++ rest) = jsTrim rest ∧
    specUid (scanHeader ++ rest) = jsTrim rest := by
  constructor
  · have hsplit : scanHeader ++ rest =
        (['R', 'F', 'I', 'D', ' ', 'T', 'a', 'g', ' ', 'U', 'I', 'D'] : List Char) ++
          (':' :: rest) := by
      simp [scanHeader]
    rw [extractUid, hsplit,
      splitOnColon_append_colonFree _ _ (by decide), splitOnColon]
    simp only [if_pos rfl, splitOnColon_colonFree rest h]
    rfl
  · rw [specUid, List.drop_left]

/-- C4 counterexample: for the line `RFID Tag UID: AB:CD` the source extracts
the UID `AB` (the text between the first and second colon), not the trimmed
remainder `AB:CD` that the claim describes. -/
theorem extractUid_colon_counterexample :
    scanHeader.isPrefixOf
        ['R', 'F', 'I', 'D', ' ', 'T', 'a', 'g', ' ', 'U', 'I', 'D', ':',
         ' ', 'A', 'B', ':', 'C', 'D'] = true ∧
    extractUid
        ['R', 'F', 'I', 'D', ' ', 'T', 'a', 'g', ' ', 'U', 'I', 'D', ':',
         ' ', 'A', 'B', ':', 'C', 'D'] = ['A', 'B'] ∧
    specUid
        ['R', 'F', 'I', 'D', ' ', 'T', 'a', 'g', ' ', 'U', 'I', 'D', ':',
         ' ', 'A', 'B', ':', 'C', 'D'] = ['A', 'B', ':', 'C', 'D'] ∧
    extractUid
        ['R', 'F', 'I', 'D', ' ', 'T', 'a', 'g', ' ', 'U', 'I', 'D', ':',
         ' ', 'A', 'B', ':', 'C', 'D'] ≠
      specUid
        ['R', 'F', 'I', 'D', ' ', 'T', 'a', 'g', ' ', 'U', 'I', 'D', ':',
         ' ', 'A', 'B', ':', 'C', 'D'] := by decide

/-- C4 (amended): a serial line triggers scan handling iff it starts with
`RFID Tag UID:`; the UID used is `split(":")[1].trim()`, i.e. the text
between the first and second colon trimmed, which equals the trimmed
remainder after the header exactly when that remainder contains no colon. -/
theorem serial_line_parsing (s : List FilterEntry) (t : Nat) (line : List Char) :
    ((handleLine s t line).2 = .notScan ↔ scanHeader.isPrefixOf line = false) ∧
    ((handleLine s t line).2 = .ignoredDup (extractUid line) ∨
     (handleLine s t line).2 = .processed (extractUid line) ∨
     (handleLine s t line).2 = .notScan) ∧
    extractUid line = jsTrim ((splitOnColon line).getD 1 []) ∧
    (∀ rest, (∀ c ∈ rest, c ≠ ':') → line = scanHeader ++ rest →
      extractUid line = jsTrim rest ∧ specUid line = jsTrim rest) := by
  refine ⟨?_, ?_, rfl, ?_⟩
  · unfold handleLine
    by_cases hpre : scanHeader.isPrefixOf line
    · by_cases hany : (pruneExpired s t).any (fun e => e.uid == extractUid line) <;>
        simp [hpre, hany]
    · simp [hpre]
  · unfold handleLine
    by_cases hpre : scanHeader.isPrefixOf line
    · by_cases hany : (pruneExpired s t).any (fun e => e.uid == extractUid line) <;>
        simp [hpre, hany]
    · simp [hpre]
  · intro rest hc hline
    subst hline
    exact extractUid_header_colonFree rest hc

/-- Witness for the amended C4: a concrete colon-free id is extracted as the
trimmed remainder after the header. -/
theorem serial_line_parsing_witness :
    extractUid (scanHeader ++ [' ', 'A', '1']) = ['A', '1'] ∧
    specUid (scanHeader ++ [' ', 'A', '1']) = ['A', '1'] := by
  have h := (serial_line_parsing [] 0 (scanHeader ++ [' ', 'A', '1'])).2.2.2
    [' ', 'A', '1'] (by decide) rfl
  exact ⟨h.1.trans (by decide), h.2.trans (by decide)⟩

theorem mem_handleLine_state {e : FilterEntry} {s : List FilterEntry} {t : Nat}
    {line : List Char} (he : e ∈ s) (ht : t < e.expiry) :
    e ∈ (handleLine s t line).1 := by
  have hp : e ∈ pruneExpired s t := by
    simp [pruneExpired, List.mem_filter, he, ht]
  unfold handleLine
  by_cases hpre : scanHeader.isPrefixOf line
  · by_cases hany : (pruneExpired s t).any (fun x => x.uid == extractUid line) <;>
      simp [hpre, hany, hp]
  · simp [hpre, hp]

theorem mem_runLines {e : FilterEntry} {s : List FilterEntry}
    {evs : List (Nat × List Char)} (he : e ∈ s) (h : ∀ ev ∈ evs, ev.1 < e.expiry) :
    e ∈ runLines s evs := by
  induction evs generalizing s with
  | nil => exact he
  | cons ev evs ih =>
    simp only [runLines, List.foldl_cons]
    exact ih (mem_handleLine_state he (h ev (by simp))) (fun x hx => h x (by simp [hx]))

theorem handleLine_of_header {s1 : List FilterEntry} {t : Nat} {line : List Char}
    (hpre : scanHeader.isPrefixOf line = true) :
    handleLine s1 t line =
      if ((pruneExpired s1 t).any fun e => e.uid == extractUid line) = true then
        (pruneExpired s1 t, .ignoredDup (extractUid line))
      else
        (⟨extractUid line, t + SCAN_TIMEOUT_MS⟩ :: pruneExpired s1 t,
          .processed (extractUid line)) := by
  unfold handleLine
  rw [if_pos hpre]

/-- C2: once a scan of a UID is accepted at `t0`, any scan line with the same
UID arriving before `t0 + 5000` (whatever other lines arrive in between) is
answered by IGNORED without invoking `handleCardScan`; once every timer for
the UID has fired the next scan of it is processed normally and re-armed for
5000 ms; and a scan is ever ignored only because of an unexpired entry for
its own UID, so other UIDs are never suppressed. -/
theorem duplicate_scan_filter (s : List FilterEntry) (t0 : Nat) (line0 : List Char)
    (uid : List Char) (hacc : (handleLine s t0 line0).2 = .processed uid) :
    (∀ evs t line, (∀ ev ∈ evs, ev.1 < t0 + SCAN_TIMEOUT_MS) →
        t < t0 + SCAN_TIMEOUT_MS → scanHeader.isPrefixOf line = true →
        extractUid line = uid →
        (handleLine (runLines (handleLine s t0 line0).1 evs) t line).2 =
          .ignoredDup uid) ∧
    (∀ (s1 : List FilterEntry) t line, (∀ e ∈ s1, e.uid = uid → e.expiry ≤ t) →
        scanHeader.isPrefixOf line = true → extractUid line = uid →
        (handleLine s1 t line).2 = .processed uid ∧
        (∀ e ∈ (handleLine s1 t line).1, e.uid = uid →
          e.expiry = t + SCAN_TIMEOUT_MS)) ∧
    (∀ (s1 : List FilterEntry) t line u, (handleLine s1 t line).2 = .ignoredDup u →
        ∃ e ∈ s1, e.uid = u ∧ t < e.expiry) := by
  have hmem : (⟨uid, t0 + SCAN_TIMEOUT_MS⟩ : FilterEntry) ∈ (handleLine s t0 line0).1 := by
    unfold handleLine at hacc ⊢
    by_cases hpre : scanHeader.isPrefixOf line0
    · by_cases hany : (pruneExpired s t0).any (fun x => x.uid == extractUid line0)
      · simp [hpre, hany] at hacc
      · simp only [hpre, hany, if_true, if_false, Bool.false_eq_true,
          LineOutcome.processed.injEq] at hacc ⊢
        rw [hacc]
        exact List.mem_cons_self _ _
    · simp [hpre] at hacc
  refine ⟨?_, ?_, ?_⟩
  · intro evs t line hevs ht hpre hext
    have h2 : (⟨uid, t0 + SCAN_TIMEOUT_MS⟩ : FilterEntry) ∈
        runLines (handleLine s t0 line0).1 evs := mem_runLines hmem hevs
    have hany : (pruneExpired (runLines (handleLine s t0 line0).1 evs) t).any
        (fun x => x.uid == extractUid line) = true := by
      rw [List.any_eq_true]
      refine ⟨⟨uid, t0 + SCAN_TIMEOUT_MS⟩, ?_, by simp [hext]⟩
      simp [pruneExpired, List.mem_filter, h2, ht]
    rw [hext] at hany
    rw [handleLine_of_header hpre, hext, if_pos hany]
  · intro s1 t line hexp hpre hext
    have hany : (pruneExpired s1 t).any (fun x => x.uid == extractUid line) = false := by
      rw [List.any_eq_false]
      intro x hx
      simp only [pruneExpired, List.mem_filter, decide_eq_true_eq] at hx
      simp only [hext, beq_iff_eq]
      intro hxe
      exact absurd hx.2 (not_lt.mpr (hexp x hx.1 hxe))
    constructor
    · rw [hext] at hany
      rw [handleLine_of_header hpre, hext, if_neg (by rw [hany]; exact Bool.false_ne_true)]
    · intro e hee heuid
      rw [handleLine_of_header hpre, if_neg (by rw [hany]; exact Bool.false_ne_true)] at hee
      rcases List.mem_cons.mp hee with h | h
      · rw [h]
      · exfalso
        simp only [pruneExpired, List.mem_filter, decide_eq_true_eq] at h
        exact absurd h.2 (not_lt.mpr (hexp e h.1 heuid))
  · intro s1 t line u hig
    by_cases hpre : scanHeader.isPrefixOf line
    · rw [handleLine_of_header hpre] at hig
      by_cases hany : (pruneExpired s1 t).any (fun e => e.uid == extractUid line)
      · rw [if_pos hany] at hig
        simp only [LineOutcome.ignoredDup.injEq] at hig
        obtain ⟨x, hx, hxe⟩ := List.any_eq_true.mp hany
        simp only [pruneExpired, List.mem_filter, decide_eq_true_eq] at hx
        refine ⟨x, hx.1, ?_, hx.2⟩
        rw [← hig]
        exact beq_iff_eq.mp hxe
      · rw [if_neg (by rw [Bool.not_eq_true] at hany ⊢; exact hany)] at hig
        simp at hig
    · unfold handleLine at hig
      simp [hpre] at hig

/-- Witness for C2: with an accepted scan at time 0, the same line scanned
again at time 3000 is ignored. -/
theorem duplicate_scan_filter_witness :
    (handleLine (runLines (handleLine [] 0
        (scanHeader ++ [' ', 'A'])).1 []) 3000 (scanHeader ++ [' ', 'A'])).2 =
      .ignoredDup ['A'] :=
  (duplicate_scan_filter [] 0 (scanHeader ++ [' ', 'A']) ['A'] (by decide)).1
    [] 3000 (scanHeader ++ [' ', 'A']) (by simp) (by decide) (by decide) (by decide)

/-- C7: whenever a query of `handleCardScan` fails, the catch block emits a
final `scan_event` with status ERROR for the scanned UID and nothing else
happens: no exception escapes, the scan is not retried, no `counts_update`
is broadcast, and the database is either untouched or holds exactly the
single write the normal path performs (never a compensating write). -/
theorem handleCardScan_error_handling (db : DB) (uid currentDate currentTime : String)
    (o : FailureOracle) :
    ((handleCardScanF db uid currentDate currentTime o).errored = true →
      (∃ det tm, (handleCardScanF db uid currentDate currentTime o).emits.getLast? =
          some (.scanEvent uid "ERROR" det tm)) ∧
      ((handleCardScanF db uid currentDate currentTime o).db = db ∨
        (handleCardScanF db uid currentDate currentTime o).db =
          (handleCardScan db uid currentDate currentTime).db) ∧
      (∀ c, Emit.countsUpdate c ∉ (handleCardScanF db uid currentDate currentTime o).emits)) ∧
    (o = noFail →
      (handleCardScanF db uid currentDate currentTime o).errored = false) := by
  obtain ⟨q1, q2, q3, q4, q5⟩ := o
  constructor
  · intro herr
    cases q1 with
    | true =>
      refine ⟨⟨none, none, ?_⟩, Or.inl ?_, ?_⟩ <;> simp [handleCardScanF]
    | false =>
      cases hr : db.rfid_details.find? (fun r => r.uid == uid) with
      | none => simp [handleCardScanF, hr] at herr
      | some rrow =>
        cases q2 with
        | true =>
          refine ⟨⟨none, none, ?_⟩, Or.inl ?_, ?_⟩ <;> simp [handleCardScanF, hr]
        | false =>
          cases hd : userDetails db rrow.user_id with
          | none => simp [handleCardScanF, hr, hd] at herr
          | some det =>
            cases q3 with
            | true =>
              refine ⟨⟨some det, none, ?_⟩, Or.inl ?_, ?_⟩ <;>
                simp [handleCardScanF, hr, hd]
            | false =>
              cases ho : db.attendance_log.find? (isOpenRow rrow.user_id currentDate) with
              | some openRow =>
                cases q4 with
                | true =>
                  refine ⟨⟨some det, none, ?_⟩, Or.inl ?_, ?_⟩ <;>
                    simp [handleCardScanF, hr, hd, ho]
                | false => simp [handleCardScanF, hr, hd, ho] at herr
              | none =>
                cases q4 with
                | true =>
                  refine ⟨⟨some det, none, ?_⟩, Or.inl ?_, ?_⟩ <;>
                    simp [handleCardScanF, hr, hd, ho]
                | false =>
                  cases q5 with
                  | true =>
                    refine ⟨⟨some det, some currentTime, ?_⟩, Or.inr ?_, ?_⟩ <;>
                      simp [handleCardScanF, handleCardScan, noFail, hr, hd, ho]
                  | false => simp [handleCardScanF, hr, hd, ho] at herr
  · intro h
    injection h with h1 h2 h3 h4 h5
    subst h1; subst h2; subst h3; subst h4; subst h5
    cases hr : db.rfid_details.find? (fun r => r.uid == uid) with
    | none => simp [handleCardScanF, hr]
    | some rrow =>
      cases hd : userDetails db rrow.user_id with
      | none => simp [handleCardScanF, hr, hd]
      | some det =>
        cases ho : db.attendance_log.find? (isOpenRow rrow.user_id currentDate) with
        | some openRow => simp [handleCardScanF, hr, hd, ho]
        | none => simp [handleCardScanF, hr, hd, ho]

/-- Witness for C7: when the open-login query fails on the concrete database,
the only effects are a trailing ERROR event, no database change and no
`counts_update`. -/
theorem handleCardScan_error_handling_witness :
    (∃ det tm, (handleCardScanF dbEx "UID1" "2026-10-11" "10:00:00"
        ⟨false, false, true, false, false⟩).emits.getLast? =
        some (.scanEvent "UID1" "ERROR" det tm)) ∧
    ((handleCardScanF dbEx "UID1" "2026-10-11" "10:00:00"
        ⟨false, false, true, false, false⟩).db = dbEx ∨
      (handleCardScanF dbEx "UID1" "2026-10-11" "10:00:00"
        ⟨false, false, true, false, false⟩).db =
        (handleCardScan dbEx "UID1" "2026-10-11" "10:00:00").db) ∧
    (∀ c, Emit.countsUpdate c ∉ (handleCardScanF dbEx "UID1" "2026-10-11" "10:00:00"
        ⟨false, false, true, false, false⟩).emits) :=
  (handleCardScan_error_handling dbEx "UID1" "2026-10-11" "10:00:00"
    ⟨false, false, true, false, false⟩).1 (by decide)

theorem joinRowsOf_map (log : List AttendanceRow) (users : List UserRow)
    (programs : List ProgramRow) (today : String) (f : AttendanceRow → AttendanceRow)
    (hf : ∀ a, (f a).log_date = a.log_date ∧ (f a).user_id = a.user_id) :
    joinRowsOf (log.map f) users programs today = joinRowsOf log users programs today := by
  induction log with
  | nil => rfl
  | cons a l ih =>
    unfold joinRowsOf at ih ⊢
    simp only [List.map_cons, List.filter_cons, (hf a).1]
    by_cases hd : (a.log_date == today) = true
    · simp only [if_pos hd, List.flatMap_cons, (hf a).2, ih]
    · simp only [if_neg hd, ih]

theorem getTodayBranchCounts_logoutDb (db : DB) (logId : Nat) (tm today : String) :
    getTodayBranchCounts (logoutDb db logId tm) today = getTodayBranchCounts db today := by
  unfold getTodayBranchCounts joinedStudentRows
  congr 1
  have h3 : (logoutDb db logId tm).attendance_log = db.attendance_log.map
      (fun a => if a.log_id == logId then { a with logout_time := some tm } else a) := rfl
  have h1 : (logoutDb db logId tm).users = db.users := rfl
  have h2 : (logoutDb db logId tm).programs = db.programs := rfl
  rw [h1, h2, h3]
  apply joinRowsOf_map
  intro a
  constructor <;> (split <;> rfl)

/-- C3: on the LOGOUT branch only the closed row's `logout_time` changes, so
`getTodayBranchCounts` (which never reads `logout_time`) is unchanged and no
`counts_update` is broadcast; `counts_update` is emitted only on the LOGIN
branch, and its payload is the grouped counts of the database state at that
moment (after the insert). -/
theorem logout_branch_frame (db : DB) (uid currentDate currentTime : String)
    (rrow : RfidRow) (det : UserDetails)
    (hr : db.rfid_details.find? (fun r => r.uid == uid) = some rrow)
    (hd : userDetails db rrow.user_id = some det) :
    (∀ openRow, db.attendance_log.find? (isOpenRow rrow.user_id currentDate) = some openRow →
      (handleCardScan db uid currentDate currentTime).db =
          logoutDb db openRow.log_id currentTime ∧
      (logoutDb db openRow.log_id currentTime).users = db.users ∧
      (logoutDb db openRow.log_id currentTime).programs = db.programs ∧
      (logoutDb db openRow.log_id currentTime).rfid_details = db.rfid_details ∧
      (∀ i (hi : i < db.attendance_log.length)
          (hi2 : i < (logoutDb db openRow.log_id currentTime).attendance_log.length),
        (logoutDb db openRow.log_id currentTime).attendance_log[i].log_id =
            db.attendance_log[i].log_id ∧
        (logoutDb db openRow.log_id currentTime).attendance_log[i].user_id =
            db.attendance_log[i].user_id ∧
        (logoutDb db openRow.log_id currentTime).attendance_log[i].log_date =
            db.attendance_log[i].log_date ∧
        (logoutDb db openRow.log_id currentTime).attendance_log[i].login_time =
            db.attendance_log[i].login_time) ∧
      (∀ day, getTodayBranchCounts (handleCardScan db uid currentDate currentTime).db day =
          getTodayBranchCounts db day) ∧
      (∀ c, Emit.countsUpdate c ∉ (handleCardScan db uid currentDate currentTime).emits)) ∧
    (db.attendance_log.find? (isOpenRow rrow.user_id currentDate) = none →
      (handleCardScan db uid currentDate currentTime).emits =
        [.scanEvent uid "LOGIN" (some det) (some currentTime),
         .countsUpdate (getTodayBranchCounts
           (handleCardScan db uid currentDate currentTime).db currentDate)]) := by
  constructor
  · intro openRow ho
    have hres : handleCardScan db uid currentDate currentTime =
        ⟨logoutDb db openRow.log_id currentTime,
         [.scanEvent uid "LOGOUT" (some det) (some currentTime)], false⟩ := by
      simp [handleCardScan, handleCardScanF, noFail, hr, hd, ho]
    refine ⟨by rw [hres], rfl, rfl, rfl, ?_, ?_, ?_⟩
    · intro i hi hi2
      have hmap : (logoutDb db openRow.log_id currentTime).attendance_log =
          db.attendance_log.map (fun a =>
            if a.log_id == openRow.log_id then { a with logout_time := some currentTime }
            else a) := rfl
      simp only [hmap, List.getElem_map]
      refine ⟨?_, ?_, ?_, ?_⟩ <;> (split <;> rfl)
    · intro day
      rw [hres]
      exact getTodayBranchCounts_logoutDb db openRow.log_id currentTime day
    · intro c
      rw [hres]
      simp
  · intro ho
    simp [handleCardScan, handleCardScanF, noFail, hr, hd, ho]

/-- Witness for C3: on the concrete database the LOGOUT scan leaves the
dashboard counts unchanged and emits no `counts_update`. -/
theorem logout_branch_frame_witness :
    getTodayBranchCounts (handleCardScan dbExOpen "UID1" "2026-10-11" "18:00:00").db
        "2026-10-11" = getTodayBranchCounts dbExOpen "2026-10-11" ∧
    (∀ c, Emit.countsUpdate c ∉
      (handleCardScan dbExOpen "UID1" "2026-10-11" "18:00:00").emits) := by
  have h := (logout_branch_frame dbExOpen "UID1" "2026-10-11" "18:00:00" ⟨"u1", "UID1"⟩
      ⟨⟨"u1", "student", "Alice", some "2", none, some 1, none⟩,
        some ⟨1, "BTech", "CSE", "CS"⟩, none⟩
      (by decide) (by decide)).1 ⟨1, "u1", "2026-10-11", "10:00:00", none⟩ (by decide)
  exact ⟨h.2.2.2.2.2.1 "2026-10-11", h.2.2.2.2.2.2⟩

theorem mem_flatCounts {rows : List (String × String)} {d b : String} {n : Nat} :
    (d, b, n) ∈ flatCounts rows ↔ ((d, b) ∈ rows ∧ n = rows.count (d, b)) := by
  unfold flatCounts
  rw [List.mem_map]
  constructor
  · rintro ⟨⟨k1, k2⟩, hk, heq⟩
    have hk2 : (k1, k2) ∈ rows := by
      rw [List.mem_dedup] at hk
      exact (List.perm_insertionSort keyLE rows).mem_iff.mp hk
    simp only [Prod.mk.injEq] at heq
    obtain ⟨h1, h2, h3⟩ := heq
    subst h1; subst h2
    exact ⟨hk2, h3.symm⟩
  · rintro ⟨hm, hn⟩
    refine ⟨(d, b), ?_, by rw [hn]⟩
    rw [List.mem_dedup]
    exact (List.perm_insertionSort keyLE rows).mem_iff.mpr hm

theorem flatCounts_pairwise (rows : List (String × String)) :
    (flatCounts rows).Pairwise (fun a b => keyLT (a.1, a.2.1) (b.1, b.2.1)) := by
  unfold flatCounts
  rw [List.pairwise_map]
  have hs : ((rows.insertionSort keyLE).dedup).Pairwise keyLE :=
    List.Pairwise.sublist (List.dedup_sublist _) (List.sorted_insertionSort keyLE rows)
  have hn : ((rows.insertionSort keyLE).dedup).Nodup := List.nodup_dedup _
  have hlt : ((rows.insertionSort keyLE).dedup).Pairwise keyLT := by
    refine List.Pairwise.imp ?_ (hs.and hn)
    rintro a b ⟨hle, hne⟩
    rcases hle with h | ⟨h1, h2⟩
    · exact Or.inl h
    · refine Or.inr ⟨h1, lt_of_le_of_ne h2 ?_⟩
      intro he
      exact hne (Prod.ext h1 he)
  refine List.Pairwise.imp ?_ hlt
  intro a b h
  exact h

/-- The effect of the grouping loop on the list of degree keys: a new degree
is appended at the end on first sight (JS object key insertion order). -/
def insertKey (ks : List String) (d : String) : List String :=
  if d ∈ ks then ks else ks ++ [d]

theorem addCountRow_map_fst (acc : List (String × List (String × Nat)))
    (row : String × String × Nat) :
    (addCountRow acc row).map (fun g => g.1) =
      insertKey (acc.map (fun g => g.1)) row.1 := by
  unfold addCountRow insertKey
  by_cases hmem : row.1 ∈ acc.map (fun g => g.1)
  · have hany : (acc.any fun g => g.1 == row.1) = true := by
      rw [List.any_eq_true]
      obtain ⟨g, hg, hg1⟩ := List.mem_map.mp hmem
      exact ⟨g, hg, by simp [hg1]⟩
    rw [if_pos hany, if_pos hmem, List.map_map]
    have hcomp : ((fun g : String × List (String × Nat) => g.1) ∘
        (fun g => if g.1 == row.1 then (g.1, g.2 ++ [(row.2.1, row.2.2)]) else g)) =
        (fun g : String × List (String × Nat) => g.1) := by
      funext g
      simp only [Function.comp]
      split <;> rfl
    rw [hcomp]
  · have hany : (acc.any fun g => g.1 == row.1) = false := by
      rw [List.any_eq_false]
      intro g hg
      simp only [beq_iff_eq]
      intro he
      exact hmem (he ▸ List.mem_map_of_mem _ hg)
    rw [if_neg (by rw [hany]; exact Bool.false_ne_true), if_neg hmem, List.map_append]
    rfl

theorem foldl_addCountRow_map_fst (fl : List (String × String × Nat))
    (acc : List (String × List (String × Nat))) :
    (fl.foldl addCountRow acc).map (fun g => g.1) =
      fl.foldl (fun ks r => insertKey ks r.1) (acc.map (fun g => g.1)) := by
  induction fl generalizing acc with
  | nil => rfl
  | cons r fl ih =>
    rw [List.foldl_cons, List.foldl_cons, ih, addCountRow_map_fst]

theorem insertKey_fold_nodup (ds : List String) (ks : List String) (h : ks.Nodup) :
    (ds.foldl insertKey ks).Nodup := by
  induction ds generalizing ks with
  | nil => exact h
  | cons d ds ih =>
    rw [List.foldl_cons]
    apply ih
    unfold insertKey
    by_cases hd : d ∈ ks
    · rwa [if_pos hd]
    · rw [if_neg hd]
      simp [List.nodup_append, h, hd]

theorem insertKey_fold_sorted (ds ks : List String) (hks : ks.Pairwise (· < ·))
    (hds : ds.Pairwise (· ≤ ·)) (hcross : ∀ k ∈ ks, ∀ d ∈ ds, k ≤ d) :
    (ds.foldl insertKey ks).Pairwise (· < ·) := by
  induction ds generalizing ks with
  | nil => exact hks
  | cons d ds ih =>
    rw [List.foldl_cons]
    refine ih (insertKey ks d) ?_ (List.pairwise_cons.mp hds).2 ?_
    · unfold insertKey
      by_cases hd : d ∈ ks
      · rwa [if_pos hd]
      · rw [if_neg hd, List.pairwise_append]
        refine ⟨hks, by simp, ?_⟩
        intro k hk d' hd'
        simp only [List.mem_singleton] at hd'
        subst hd'
        exact lt_of_le_of_ne (hcross k hk d' (by simp)) (fun he => hd (he ▸ hk))
    · intro k hk d' hd'
      unfold insertKey at hk
      by_cases hd : d ∈ ks
      · rw [if_pos hd] at hk
        exact hcross k hk d' (by simp [hd'])
      · rw [if_neg hd] at hk
        rcases List.mem_append.mp hk with h | h
        · exact hcross k h d' (by simp [hd'])
        · simp only [List.mem_singleton] at h
          subst h
          exact (List.pairwise_cons.mp hds).1 d' hd'

theorem mem_insertKey_fold (ds : List String) (ks : List String) (d : String)
    (h : d ∈ ds ∨ d ∈ ks) : d ∈ ds.foldl insertKey ks := by
  induction ds generalizing ks with
  | nil =>
    rcases h with h | h
    · simp at h
    · exact h
  | cons a ds ih =>
    rw [List.foldl_cons]
    apply ih
    rcases h with h | h
    · rcases List.mem_cons.mp h with rfl | h2
      · right
        unfold insertKey
        by_cases ha : d ∈ ks
        · rwa [if_pos ha]
        · rw [if_neg ha]
          simp
      · exact Or.inl h2
    · right
      unfold insertKey
      by_cases ha : a ∈ ks
      · rwa [if_pos ha]
      · rw [if_neg ha]
        exact List.mem_append_left _ h

/-- The entry list the grouped object associates to a degree (empty when the
degree key is absent). -/
def entriesFor (g : List (String × List (String × Nat))) (deg : String) :
    List (String × Nat) :=
  (g.filter (fun x => x.1 == deg)).flatMap (fun x => x.2)

theorem filter_fst_of_nodup (acc : List (String × List (String × Nat))) (deg : String)
    (hnd : (acc.map (fun g => g.1)).Nodup) :
    acc.filter (fun g => g.1 == deg) = [] ∨
    ∃ es, acc.filter (fun g => g.1 == deg) = [(deg, es)] := by
  induction acc with
  | nil => exact Or.inl rfl
  | cons g acc ih =>
    rw [List.map_cons, List.nodup_cons] at hnd
    rw [List.filter_cons]
    by_cases hg : (g.1 == deg) = true
    · rw [if_pos hg]
      have hdeg : g.1 = deg := beq_iff_eq.mp hg
      have hrest : acc.filter (fun x => x.1 == deg) = [] := by
        rw [List.filter_eq_nil_iff]
        intro x hx hxd
        have hxdeq : x.1 = deg := beq_iff_eq.mp hxd
        exact hnd.1 (by rw [hdeg, ← hxdeq]; exact List.mem_map_of_mem _ hx)
      right
      refine ⟨g.2, ?_⟩
      rw [hrest]
      obtain ⟨g1, g2⟩ := g
      simp only at hdeg
      rw [hdeg]
    · rw [if_neg hg]
      exact ih hnd.2

theorem entriesFor_addCountRow (acc : List (String × List (String × Nat)))
    (row : String × String × Nat) (deg : String)
    (hnd : (acc.map (fun g => g.1)).Nodup) :
    entriesFor (addCountRow acc row) deg =
      entriesFor acc deg ++ (if row.1 = deg then [(row.2.1, row.2.2)] else []) := by
  unfold entriesFor addCountRow
  by_cases hany : (acc.any fun g => g.1 == row.1) = true
  · rw [if_pos hany]
    have hpf : (fun x : String × List (String × Nat) => x.1 == deg) ∘
        (fun g => if g.1 == row.1 then (g.1, g.2 ++ [(row.2.1, row.2.2)]) else g) =
        (fun x : String × List (String × Nat) => x.1 == deg) := by
      funext g
      simp only [Function.comp]
      split <;> rfl
    rw [List.filter_map, hpf]
    rcases filter_fst_of_nodup acc deg hnd with hnil | ⟨es, hes⟩
    · rw [hnil]
      by_cases hrd : row.1 = deg
      · exfalso
        obtain ⟨gx, hgx, hgx1⟩ := List.any_eq_true.mp hany
        have : gx ∈ acc.filter (fun g => g.1 == deg) := by
          rw [List.mem_filter]
          exact ⟨hgx, by simp [beq_iff_eq.mp hgx1, hrd]⟩
        rw [hnil] at this
        simp at this
      · simp [hrd]
    · rw [hes]
      simp only [List.map_cons, List.map_nil, List.flatMap_cons, List.flatMap_nil,
        List.append_nil]
      by_cases hrd : row.1 = deg
      · rw [if_pos hrd]
        have : (deg == row.1) = true := by simp [hrd]
        simp [this]
      · rw [if_neg hrd]
        have hne : (deg == row.1) = false := by
          rw [beq_eq_false_iff_ne]
          exact fun h => hrd h.symm
        simp [hne]
  · rw [if_neg (by rw [Bool.not_eq_true] at hany ⊢; exact hany)]
    rw [List.filter_append, List.flatMap_append]
    by_cases hrd : row.1 = deg
    · simp [hrd]
    · have : (row.1 == deg) = false := by simp [hrd]
      simp [this, hrd]

theorem entriesFor_foldl (fl : List (String × String × Nat))
    (acc : List (String × List (String × Nat))) (deg : String)
    (hnd : (acc.map (fun g => g.1)).Nodup) :
    entriesFor (fl.foldl addCountRow acc) deg =
      entriesFor acc deg ++
        (fl.filter (fun r => r.1 == deg)).map (fun r => (r.2.1, r.2.2)) := by
  induction fl generalizing acc with
  | nil => simp
  | cons r fl ih =>
    rw [List.foldl_cons]
    have hnd2 : ((addCountRow acc r).map (fun g => g.1)).Nodup := by
      rw [addCountRow_map_fst]
      unfold insertKey
      by_cases hd : r.1 ∈ acc.map (fun g => g.1)
      · rwa [if_pos hd]
      · rw [if_neg hd]
        simp [List.nodup_append, hnd, hd]
    rw [ih _ hnd2, entriesFor_addCountRow acc r deg hnd, List.filter_cons]
    by_cases hrd : (r.1 == deg) = true
    · rw [if_pos hrd, if_pos (beq_iff_eq.mp hrd)]
      simp [List.append_assoc]
    · rw [if_neg hrd, if_neg (by simpa using hrd)]
      simp

theorem mem_groups_iff {g : List (String × List (String × Nat))} {deg : String}
    {es : List (String × Nat)} (hnd : (g.map (fun x => x.1)).Nodup) :
    (deg, es) ∈ g ↔ (deg ∈ g.map (fun x => x.1) ∧ es = entriesFor g deg) := by
  induction g with
  | nil => simp [entriesFor]
  | cons x g ih =>
    rw [List.map_cons, List.nodup_cons] at hnd
    unfold entriesFor
    rw [List.filter_cons]
    by_cases hx : (x.1 == deg) = true
    · have hxd : x.1 = deg := beq_iff_eq.mp hx
      rw [if_pos hx]
      have hrest : g.filter (fun y => y.1 == deg) = [] := by
        rw [List.filter_eq_nil_iff]
        intro y hy hyd
        exact hnd.1 (by rw [hxd, ← beq_iff_eq.mp hyd]; exact List.mem_map_of_mem _ hy)
      rw [hrest]
      simp only [List.flatMap_cons, List.flatMap_nil, List.append_nil]
      constructor
      · intro h
        rcases List.mem_cons.mp h with h | h
        · obtain ⟨x1, x2⟩ := x
          simp only at hxd
          injection h with h1 h2
          exact ⟨by simp only [List.map_cons, List.mem_cons]; exact Or.inl h1, by rw [h2]⟩
        · exfalso
          exact hnd.1 (by rw [hxd]; exact List.mem_map.mpr ⟨(deg, es), h, rfl⟩)
      · rintro ⟨hmem, rfl⟩
        obtain ⟨x1, x2⟩ := x
        simp only at hxd
        subst hxd
        exact List.mem_cons_self _ _
    · have hxd : ¬ x.1 = deg := by simpa using hx
      rw [if_neg hx]
      constructor
      · intro h
        rcases List.mem_cons.mp h with h | h
        · exfalso
          apply hxd
          rw [← h]
        · have h2 := (ih hnd.2).mp h
          exact ⟨List.mem_cons_of_mem _ h2.1, h2.2⟩
      · rintro ⟨hmem, hes⟩
        rcases List.mem_cons.mp hmem with h | h
        · exact absurd h.symm hxd
        · exact List.mem_cons_of_mem _ ((ih hnd.2).mpr ⟨h, hes⟩)

theorem joinRowsOf_append (l1 l2 : List AttendanceRow) (users : List UserRow)
    (programs : List ProgramRow) (today : String) :
    joinRowsOf (l1 ++ l2) users programs today =
      joinRowsOf l1 users programs today ++ joinRowsOf l2 users programs today := by
  unfold joinRowsOf
  rw [List.filter_append, List.flatMap_append]

theorem mem_joinRowsOf {log : List AttendanceRow} {users : List UserRow}
    {programs : List ProgramRow} {today d b : String} :
    (d, b) ∈ joinRowsOf log users programs today ↔
      ∃ al ∈ log, ∃ u ∈ users, ∃ p ∈ programs,
        al.log_date = today ∧ u.user_id = al.user_id ∧ u.user_type = "student" ∧
        u.program_id = some p.program_id ∧ p.degree = d ∧ p.branch_code = b := by
  unfold joinRowsOf
  simp only [List.mem_flatMap, List.mem_filter, List.mem_map, Bool.and_eq_true,
    beq_iff_eq, Prod.mk.injEq]
  constructor
  · rintro ⟨al, ⟨hal, hdate⟩, u, ⟨hu, huid, hut⟩, p, ⟨hp, hpid⟩, hd, hb⟩
    exact ⟨al, hal, u, hu, p, hp, hdate, huid, hut, hpid, hd, hb⟩
  · rintro ⟨al, hal, u, hu, p, hp, hdate, huid, hut, hpid, hd, hb⟩
    exact ⟨al, ⟨hal, hdate⟩, u, ⟨hu, huid, hut⟩, p, ⟨hp, hpid⟩, hd, hb⟩

/-- C10: `getTodayBranchCounts` counts exactly today's attendance rows whose
user is a student with a matching program (faculty rows and users without a
program never contribute); the result is keyed by degree in ascending order
with `(branch_code, visit_count)` entries ascending within each degree, and
appending a non-student attendance row leaves it unchanged. -/
theorem getTodayBranchCounts_students_only (db : DB) (today : String) :
    ((getTodayBranchCounts db today).map (fun g => g.1)).Pairwise (· < ·) ∧
    (∀ deg es, (deg, es) ∈ getTodayBranchCounts db today →
      (es.map (fun e => e.1)).Pairwise (· < ·)) ∧
    (∀ deg es, (deg, es) ∈ getTodayBranchCounts db today → ∀ bc n, (bc, n) ∈ es →
      (deg, bc) ∈ joinedStudentRows db today ∧
        n = (joinedStudentRows db today).count (deg, bc)) ∧
    (∀ d b, (d, b) ∈ joinedStudentRows db today →
      ∃ es, (d, es) ∈ getTodayBranchCounts db today ∧
        (b, (joinedStudentRows db today).count (d, b)) ∈ es) ∧
    (∀ d b, (d, b) ∈ joinedStudentRows db today ↔
      ∃ al ∈ db.attendance_log, ∃ u ∈ db.users, ∃ p ∈ db.programs,
        al.log_date = today ∧ u.user_id = al.user_id ∧ u.user_type = "student" ∧
        u.program_id = some p.program_id ∧ p.degree = d ∧ p.branch_code = b) ∧
    (∀ row : AttendanceRow,
      (∀ u ∈ db.users, u.user_id = row.user_id → u.user_type ≠ "student") →
      getTodayBranchCounts { db with attendance_log := db.attendance_log ++ [row] } today =
        getTodayBranchCounts db today) := by
  have hkeys : (getTodayBranchCounts db today).map (fun g => g.1) =
      (flatCounts (joinedStudentRows db today)).foldl (fun ks r => insertKey ks r.1) [] := by
    unfold getTodayBranchCounts countsOfRows
    rw [foldl_addCountRow_map_fst]
    rfl
  have hflat_pair := flatCounts_pairwise (joinedStudentRows db today)
  have hnodup : ((getTodayBranchCounts db today).map (fun g => g.1)).Nodup := by
    rw [hkeys, ← List.foldl_map]
    exact insertKey_fold_nodup _ [] List.nodup_nil
  have hent : ∀ deg, entriesFor (getTodayBranchCounts db today) deg =
      ((flatCounts (joinedStudentRows db today)).filter (fun r => r.1 == deg)).map
        (fun r => (r.2.1, r.2.2)) := by
    intro deg
    unfold getTodayBranchCounts countsOfRows
    rw [entriesFor_foldl _ _ _ (by simp)]
    simp [entriesFor]
  refine ⟨?_, ?_, ?_, ?_, ?_, ?_⟩
  · rw [hkeys, ← List.foldl_map]
    refine insertKey_fold_sorted _ [] List.Pairwise.nil ?_ ?_
    · rw [List.pairwise_map]
      refine List.Pairwise.imp ?_ hflat_pair
      intro a b h
      rcases h with h | ⟨h1, _⟩
      · exact le_of_lt h
      · exact le_of_eq h1
    · intro k hk
      exact absurd hk (List.not_mem_nil k)
  · intro deg es hmem
    have h2 := (mem_groups_iff hnodup).mp hmem
    rw [h2.2, hent deg, List.map_map, List.pairwise_map]
    have hfil : ((flatCounts (joinedStudentRows db today)).filter
        (fun r => r.1 == deg)).Pairwise (fun a b => keyLT (a.1, a.2.1) (b.1, b.2.1)) :=
      List.Pairwise.sublist (List.filter_sublist _) hflat_pair
    refine List.Pairwise.imp_of_mem ?_ hfil
    intro a b ha hb hab
    have ha1 : a.1 = deg := beq_iff_eq.mp (List.mem_filter.mp ha).2
    have hb1 : b.1 = deg := beq_iff_eq.mp (List.mem_filter.mp hb).2
    rcases hab with h | ⟨_, h2'⟩
    · rw [ha1, hb1] at h
      exact absurd h (lt_irrefl _)
    · exact h2'
  · intro deg es hmem bc n hbc
    have h2 := (mem_groups_iff hnodup).mp hmem
    rw [h2.2, hent deg] at hbc
    obtain ⟨r, hr, hreq⟩ := List.mem_map.mp hbc
    have hrf := List.mem_filter.mp hr
    have hr1 : r.1 = deg := beq_iff_eq.mp hrf.2
    obtain ⟨r1, r2, r3⟩ := r
    simp only at hr1
    subst hr1
    simp only [Prod.mk.injEq] at hreq
    obtain ⟨hb2, hn3⟩ := hreq
    subst hb2
    subst hn3
    exact mem_flatCounts.mp hrf.1
  · intro d b hdb
    have hflat_mem : (d, b, (joinedStudentRows db today).count (d, b)) ∈
        flatCounts (joinedStudentRows db today) := mem_flatCounts.mpr ⟨hdb, rfl⟩
    have hdkey : d ∈ (getTodayBranchCounts db today).map (fun g => g.1) := by
      rw [hkeys, ← List.foldl_map]
      apply mem_insertKey_fold
      left
      exact List.mem_map.mpr ⟨(d, b, (joinedStudentRows db today).count (d, b)),
        hflat_mem, rfl⟩
    refine ⟨entriesFor (getTodayBranchCounts db today) d,
      (mem_groups_iff hnodup).mpr ⟨hdkey, rfl⟩, ?_⟩
    rw [hent d]
    refine List.mem_map.mpr ⟨(d, b, (joinedStudentRows db today).count (d, b)), ?_, rfl⟩
    rw [List.mem_filter]
    exact ⟨hflat_mem, by simp⟩
  · intro d b
    exact mem_joinRowsOf
  · intro row hfac
    unfold getTodayBranchCounts joinedStudentRows
    congr 1
    show joinRowsOf (db.attendance_log ++ [row]) db.users db.programs today =
      joinRowsOf db.attendance_log db.users db.programs today
    rw [joinRowsOf_append]
    have hone : joinRowsOf [row] db.users db.programs today = [] := by
      unfold joinRowsOf
      by_cases hdate : (row.log_date == today) = true
      · simp only [List.filter_cons, hdate, if_true, List.filter_nil, List.flatMap_cons,
          List.flatMap_nil, List.append_nil]
        have husers : db.users.filter
            (fun u => u.user_id == row.user_id && u.user_type == "student") = [] := by
          rw [List.filter_eq_nil_iff]
          intro u hu
          simp only [Bool.and_eq_true, beq_iff_eq, not_and]
          intro h1 h2
          exact hfac u hu h1 h2
        rw [husers]
        rfl
      · rw [List.filter_cons, if_neg hdate]
        rfl
    rw [hone, List.append_nil]

/-- A concrete database with one student and one faculty member, both with
attendance rows today. -/
def dbEx2 : DB where
  rfid_details := [⟨"u1", "UID1"⟩, ⟨"f1", "UID2"⟩]
  users := [⟨"u1", "student", "Alice", some "2", none, some 1, none⟩,
            ⟨"f1", "faculty", "Bob", none, some "Prof", none, some 1⟩]
  programs := [⟨1, "BTech", "CSE", "CS"⟩]
  departments := [⟨1, "CSE Dept"⟩]
  attendance_log := [⟨1, "u1", "2026-10-11", "10:00:00", none⟩,
                     ⟨2, "f1", "2026-10-11", "10:05:00", none⟩]
  nextLogId := 3

/-- Witness for C10: appending a faculty attendance row leaves the dashboard
counts unchanged on the concrete database. -/
theorem getTodayBranchCounts_students_only_witness :
    getTodayBranchCounts { dbEx2 with attendance_log :=
        dbEx2.attendance_log ++ [⟨3, "f1", "2026-10-11", "11:00:00", none⟩] }
      "2026-10-11" = getTodayBranchCounts dbEx2 "2026-10-11" :=
  (getTodayBranchCounts_students_only dbEx2 "2026-10-11").2.2.2.2.2
    ⟨3, "f1", "2026-10-11", "11:00:00", none⟩ (by decide)
